import Mathlib

/-!
Verification development for the boa engine fragment: the BigInt builtin
(`src/boa/src/builtins/bigint/mod.rs`) and the update-expression parser
(`src/boa/src/syntax/parser/expression/update.rs`).

Runtime values, the coercion layer (`to_bigint`, `to_index`, `to_integer`),
the arbitrary-precision integer operations (`%`, `pow`, `to_str_radix`) and
the operand sub-parser live outside the two source files; they are modelled
from the specification, with a doc comment marking each such definition.
Machine integers are modelled as Nat/Int with explicit bounds where the
source casts (`as u32`, `u32::try_from(..).unwrap_or(u32::MAX)`).
-/

/-- Catchable language-level error values (RangeError / TypeError carrying a
message), the `ErrorKind` taxonomy of the data model. -/
inductive JsError where
  | rangeError : String → JsError
  | typeError : String → JsError
  deriving DecidableEq, Repr

/-- Outcome of a builtin call: `ok` mirrors `Ok(value)`, `err` mirrors a
returned catchable error value (`Err(...)` in `ResultValue`), and `fatal`
mirrors a Rust panic (`todo!()`, `unwrap`/`expect` failure, or a library
precondition violation). -/
inductive Outcome (α : Type) where
  | ok : α → Outcome α
  | err : JsError → Outcome α
  | fatal : String → Outcome α
  deriving DecidableEq, Repr

/-- Modelled from the spec: `RuntimeValue`, the tagged union of runtime
values. It holds the primitive kinds the claims exercise (undefined,
numbers as exact rationals `num / den` with `den` positive and the
fraction in lowest terms, strings, BigInt integers) and the wrapper
object carrying the one internal slot `"BigIntData"` with an Integer. -/
inductive Value where
  | undefined : Value
  | numV : ℤ → ℕ → Value
  | strV : String → Value
  | bigintV : ℤ → Value
  | wrapperV : ℤ → Value
  deriving DecidableEq, Repr

/-- Modelled from the spec: digit value of a decimal character, helper for
the numeric-string parse used by `ToBigInt`. -/
def digitVal (c : Char) : Option ℕ :=
  if 48 ≤ c.toNat ∧ c.toNat ≤ 57 then some (c.toNat - 48) else none

/-- Modelled from the spec: accumulate decimal digits into a natural
number; `none` on a non-digit or on the empty digit list. -/
def parseDigits : List Char → Option ℕ
  | [] => none
  | cs => go cs 0
where
  go : List Char → ℕ → Option ℕ
    | [], acc => some acc
    | c :: rest, acc =>
      match digitVal c with
      | some d => go rest (acc * 10 + d)
      | none => none

/-- Modelled from the spec: parse of an integer-shaped string (optional
leading minus, decimal digits), the numeric-like string case of
`ToBigInt`. -/
def strToInt : String → Option ℤ
  | s =>
    match s.toList with
    | List.cons (Char.ofNat 45) rest => (parseDigits rest).map (fun n => -(n : ℤ))
    | cs => (parseDigits cs).map (fun n => (n : ℤ))

/-- Modelled from the spec: `ToBigInt(value) -> Result<Integer, RangeError>`
converts a runtime value to an exact integer and fails (`none`) when the
value is not integral — a number with a fractional part, a non-numeric
string, or `undefined`. A wrapper yields the Integer in its internal
slot. -/
def Value.to_bigint : Value → Option ℤ
  | Value.undefined => none
  | Value.numV n d => if d = 1 then some n else none
  | Value.strV s => strToInt s
  | Value.bigintV n => some n
  | Value.wrapperV n => some n

/-- Failure classes of `ToIndex`: `typeError` when the value cannot undergo
numeric coercion at all, `rangeError` when it coerces but is negative or
non-integral. -/
inductive IndexError where
  | typeError : IndexError
  | rangeError : IndexError
  deriving DecidableEq, Repr

deriving instance DecidableEq for Except

/-- Modelled from the spec: `ToIndex(value) -> Result<usize-like,
{RangeError | TypeError}>`. `TypeError` when the type cannot be numerically
coerced (BigInt values, wrappers, `undefined` — missing arguments fail
coercion), `RangeError` when the value coerces but is negative or
non-integral. -/
def Value.to_index : Value → Except IndexError ℕ
  | Value.undefined => Except.error IndexError.typeError
  | Value.numV n d =>
    if d = 1 then
      if n < 0 then Except.error IndexError.rangeError
      else Except.ok n.toNat
    else Except.error IndexError.rangeError
  | Value.strV s =>
    match strToInt s with
    | some n => if n < 0 then Except.error IndexError.rangeError else Except.ok n.toNat
    | none => Except.error IndexError.rangeError
  | Value.bigintV _ => Except.error IndexError.typeError
  | Value.wrapperV _ => Except.error IndexError.typeError

/-- Modelled from the spec: `ToIntegerOrInfinity`-style coercion to an
integer, used for the optional radix argument of `toString`. Non-numeric
values coerce to 0; a fractional number is floored. -/
def Value.to_integer : Value → ℤ
  | Value.undefined => 0
  | Value.numV n d => Int.fdiv n (d : ℤ)
  | Value.strV s => (strToInt s).getD 0
  | Value.bigintV n => n
  | Value.wrapperV n => n

/-- Modelled from the spec: lowercase digit character for a digit value
below the radix (bases above 10 use lowercase letters). -/
def digitChar (d : ℕ) : Char :=
  if d < 10 then Char.ofNat (48 + d) else Char.ofNat (87 + d)

/-- Modelled from the spec: most-significant-first digit list of a natural
number in the given base, with fuel for termination. -/
def natDigitsAux (base : ℕ) : ℕ → ℕ → List Char
  | 0, _ => []
  | fuel + 1, n =>
    if n = 0 then [] else natDigitsAux base fuel (n / base) ++ [digitChar (n % base)]

/-- Modelled from the spec: radix string of a natural number — no leading
zeros, and 0 renders as "0". -/
def natRadixStr (base n : ℕ) : String :=
  if n = 0 then "0" else String.mk (natDigitsAux base (n + 1) n)

/-- Modelled from the spec: radix string of an integer, a single leading
minus sign for negative values. -/
def intRadixStr (base : ℕ) (n : ℤ) : String :=
  if n < 0 then "-" ++ natRadixStr base n.natAbs else natRadixStr base n.natAbs

namespace AstBigInt

/-- Modelled from the spec: `AstBigInt::pow` with a nonnegative exponent
(the Integer type exposes `pow(nonneg exponent)`; behaviour at a negative
exponent is not specified and is modelled as exponent 0). -/
def pow (b e : ℤ) : ℤ := b ^ e.toNat

/-- Modelled from the spec: `AstBigInt::to_str_radix` formats in a base in
[2, 36]; a base outside that range violates the precondition of the
conversion (`none`, a panic at runtime). -/
def to_str_radix (n : ℤ) (base : ℕ) : Option String :=
  if 2 ≤ base ∧ base ≤ 36 then some (intRadixStr base n) else none

end AstBigInt

/-- Modelled from the spec: the textual form of a runtime value, used by
the `RangeError` message of `make_bigint` (the `{}` Display formatting of
`Value`). -/
def Value.display : Value → String
  | Value.undefined => "undefined"
  | Value.numV n d =>
    if d = 1 then intRadixStr 10 n else intRadixStr 10 n ++ "/" ++ natRadixStr 10 d
  | Value.strV s => s
  | Value.bigintV n => intRadixStr 10 n
  | Value.wrapperV n => intRadixStr 10 n

/-- `u32::MAX`, the saturation bound applied to the coerced bits index. -/
def u32Max : ℕ := 4294967295

namespace BigInt

/-- Embedding of `BigInt::make_bigint` (mod.rs lines 43-65): no argument
gives Integer 0; otherwise `ToBigInt`, with a `RangeError` embedding the
textual form of the value on failure. -/
def make_bigint (args : List Value) : Outcome Value :=
  match args.head? with
  | some value =>
    match value.to_bigint with
    | some bigint => Outcome.ok (Value.bigintV bigint)
    | none =>
      Outcome.err (JsError.rangeError
        (value.display ++ " can\x27t be converted to BigInt because it isn\x27t an integer"))
  | none => Outcome.ok (Value.bigintV 0)

/-- Embedding of `BigInt::to_string` (mod.rs lines 78-97): radix defaults
to 10, the radix check is the source condition `radix < 2 && radix > 36`
verbatim, then the wrapped integer is unwrapped (panic when absent) and
formatted with `to_str_radix` at `radix as u32`. -/
def to_string (self : Value) (args : List Value) : Outcome Value :=
  let radix : ℤ := match args with
    | [] => 10
    | arg :: _ => arg.to_integer
  if radix < 2 ∧ 36 < radix then
    Outcome.err (JsError.rangeError
      "radix must be an integer at least 2 and no greater than 36")
  else
    match self.to_bigint with
    | none => Outcome.fatal "called Option::unwrap on a None value"
    | some n =>
      match AstBigInt.to_str_radix n (Int.toNat (radix % 4294967296)) with
      | none => Outcome.fatal "to_str_radix: radix out of range"
      | some s => Outcome.ok (Value.strV s)

/-- Embedding of `BigInt::value_of` (mod.rs lines 109-117): `to_bigint`
on the receiver, with an `expect` panic (fatal, not catchable) when the
conversion fails. -/
def value_of (self : Value) (_args : List Value) : Outcome Value :=
  match self.to_bigint with
  | some n => Outcome.ok (Value.bigintV n)
  | none => Outcome.fatal "BigInt.prototype.valueOf"

/-- The arithmetic tail of `BigInt::as_int_n` after the width clamp
(mod.rs lines 158-166): Euclidean remainder by `2^bits`, then the
two-complement reinterpretation when the remainder reaches
`2^(bits - 1)`. Exponents are the source expressions `bits as i64` and
`bits as i64 - 1` (no wrap: `bits ≤ u32::MAX < 2^63`). -/
def as_int_n_tail (bits : ℕ) (v : ℤ) : ℤ :=
  let modulo := v % AstBigInt.pow 2 (bits : ℤ)
  if AstBigInt.pow 2 ((bits : ℤ) - 1) ≤ modulo then
    modulo - AstBigInt.pow 2 (bits : ℤ)
  else
    modulo

/-- The arithmetic tail of `BigInt::as_uint_n` after the width clamp
(mod.rs lines 208-210): Euclidean remainder by `2^bits`. -/
def as_uint_n_tail (bits : ℕ) (v : ℤ) : ℤ :=
  v % AstBigInt.pow 2 (bits : ℤ)

/-- Embedding of `BigInt::as_int_n` (mod.rs lines 124-167): exactly two
arguments or `todo!()` (fatal); `ToIndex` on bits with every failure
mapped to one fixed `RangeError`; saturating cast to `u32`
(`u32::try_from(bits).unwrap_or(u32::MAX)`); `ToBigInt` on the second
argument with a `RangeError` on failure; then the signed wrap. -/
def as_int_n (args : List Value) : Outcome Value :=
  match args with
  | [bits, bigint] =>
    match bits.to_index with
    | Except.error _ =>
      Outcome.err (JsError.rangeError
        "bits must be convertable to a positive integral number")
    | Except.ok bitsIdx =>
      let bits32 : ℕ := if bitsIdx ≤ u32Max then bitsIdx else u32Max
      match bigint.to_bigint with
      | none => Outcome.err (JsError.rangeError "bigint must be convertable to BigInt")
      | some v => Outcome.ok (Value.bigintV (as_int_n_tail bits32 v))
  | _ => Outcome.fatal "not yet implemented"

/-- Embedding of `BigInt::as_uint_n` (mod.rs lines 174-211): same shape as
`as_int_n`, returning the Euclidean remainder directly. -/
def as_uint_n (args : List Value) : Outcome Value :=
  match args with
  | [bits, bigint] =>
    match bits.to_index with
    | Except.error _ =>
      Outcome.err (JsError.rangeError
        "bits must be convertable to a positive integral number")
    | Except.ok bitsIdx =>
      let bits32 : ℕ := if bitsIdx ≤ u32Max then bitsIdx else u32Max
      match bigint.to_bigint with
      | none => Outcome.err (JsError.rangeError "bigint must be convertable to BigInt")
      | some v => Outcome.ok (Value.bigintV (as_uint_n_tail bits32 v))
  | _ => Outcome.fatal "not yet implemented"

end BigInt

/-- Punctuator kinds relevant to the update-expression production: `Inc`
(`++`), `Dec` (`--`), and a stand-in for every other punctuator. -/
inductive Punctuator where
  | inc : Punctuator
  | dec : Punctuator
  | otherPunc : String → Punctuator
  deriving DecidableEq, Repr

/-- Token kinds as the parser observes them (source positions carried by
real tokens play no role in the parse decisions and are omitted). -/
inductive TokenKind where
  | punc : Punctuator → TokenKind
  | identifier : String → TokenKind
  | otherTok : String → TokenKind
  deriving DecidableEq, Repr

/-- Unary operators of the update-expression production, named as in the
source `UnaryOp` enum. -/
inductive UnaryOp where
  | incrementPre : UnaryOp
  | decrementPre : UnaryOp
  | incrementPost : UnaryOp
  | decrementPost : UnaryOp
  deriving DecidableEq, Repr

/-- AST nodes produced by this parser fragment: identifiers (from the
operand sub-parse) and unary-operator nodes wrapping an operand. -/
inductive Node where
  | identifier : String → Node
  | unary_op : UnaryOp → Node → Node
  deriving DecidableEq, Repr

/-- Parse errors: `abruptEnd` when the token stream is exhausted where a
token is required, and a catch-all for other expectation failures. -/
inductive ParseError where
  | abruptEnd : ParseError
  | general : String → ParseError
  deriving DecidableEq, Repr

/-- Modelled from the spec: the cursor is a token stream with one-token
lookahead (`peek(0)` is the head) and monotonic consumption (`next()`
drops the head); a sub-parse returns the node together with the remaining
stream. -/
def SubParse : Type :=
  Bool → Bool → List TokenKind → Except ParseError (Node × List TokenKind)

/-- Modelled from the spec: a minimal `LeftHandSideExpression` operand
sub-parse sufficient for the concrete parses the claims exercise — it
accepts a single identifier token, fails with `AbruptEnd` on an empty
stream, and ignores the context flags. -/
def lhsIdentParse : SubParse := fun _allowYield _allowAwait toks =>
  match toks with
  | [] => Except.error ParseError.abruptEnd
  | TokenKind.identifier s :: rest => Except.ok (Node.identifier s, rest)
  | _ => Except.error (ParseError.general "expected an identifier")

namespace UpdateExpression

/-- Embedding of `UpdateExpression::parse` (update.rs lines 43-82) over an
abstract operand sub-parse standing for `LeftHandSideExpression::parse`.
`peek(0)` on an empty cursor is `AbruptEnd`; a leading `Inc`/`Dec` is
consumed and the operand parsed from the rest yields a prefix node
(returned immediately); otherwise the operand is parsed from the intact
cursor and a following `Inc`/`Dec`, if any, is consumed to yield a postfix
node. The context flags are forwarded to every sub-parse unchanged, and a
sub-parse error is returned as-is by the `?` operator. -/
def parse (lhs : SubParse) (allow_yield allow_await : Bool)
    (cursor : List TokenKind) : Except ParseError (Node × List TokenKind) :=
  match cursor with
  | [] => Except.error ParseError.abruptEnd
  | tok :: rest =>
    match tok with
    | TokenKind.punc Punctuator.inc =>
      match lhs allow_yield allow_await rest with
      | Except.error e => Except.error e
      | Except.ok (operand, rest2) =>
        Except.ok (Node.unary_op UnaryOp.incrementPre operand, rest2)
    | TokenKind.punc Punctuator.dec =>
      match lhs allow_yield allow_await rest with
      | Except.error e => Except.error e
      | Except.ok (operand, rest2) =>
        Except.ok (Node.unary_op UnaryOp.decrementPre operand, rest2)
    | _ =>
      match lhs allow_yield allow_await cursor with
      | Except.error e => Except.error e
      | Except.ok (lhsNode, rest2) =>
        match rest2 with
        | TokenKind.punc Punctuator.inc :: rest3 =>
          Except.ok (Node.unary_op UnaryOp.incrementPost lhsNode, rest3)
        | TokenKind.punc Punctuator.dec :: rest3 =>
          Except.ok (Node.unary_op UnaryOp.decrementPost lhsNode, rest3)
        | _ => Except.ok (lhsNode, rest2)

end UpdateExpression

lemma AstBigInt.pow_two_natCast (n : ℕ) : AstBigInt.pow 2 (n : ℤ) = 2 ^ n := by
  simp [AstBigInt.pow]

lemma AstBigInt.pow_two_natCast_pred (n : ℕ) (h : 1 ≤ n) :
    AstBigInt.pow 2 ((n : ℤ) - 1) = 2 ^ (n - 1) := by
  simp only [AstBigInt.pow]
  congr 1
  omega

lemma as_uint_n_tail_spec (bits : ℕ) (v : ℤ) :
    BigInt.as_uint_n_tail bits v = v % 2 ^ bits
    ∧ 0 ≤ v % 2 ^ bits
    ∧ v % 2 ^ bits < 2 ^ bits
    ∧ (v % 2 ^ bits) % 2 ^ bits = v % 2 ^ bits := by
  have hpos : (0 : ℤ) < 2 ^ bits := by positivity
  refine ⟨?_, Int.emod_nonneg v (ne_of_gt hpos), Int.emod_lt_of_pos v hpos,
    Int.emod_emod_of_dvd v dvd_rfl⟩
  simp [BigInt.as_uint_n_tail, AstBigInt.pow_two_natCast]

lemma as_int_n_tail_eq (bits : ℕ) (h : 1 ≤ bits) (v : ℤ) :
    BigInt.as_int_n_tail bits v =
      (if 2 ^ (bits - 1) ≤ v % 2 ^ bits then v % 2 ^ bits - 2 ^ bits else v % 2 ^ bits) := by
  simp only [BigInt.as_int_n_tail, AstBigInt.pow_two_natCast, AstBigInt.pow_two_natCast_pred bits h]

lemma as_int_n_tail_spec (bits : ℕ) (h : 1 ≤ bits) (v : ℤ) :
    -(2 ^ (bits - 1)) ≤ BigInt.as_int_n_tail bits v
    ∧ BigInt.as_int_n_tail bits v ≤ 2 ^ (bits - 1) - 1
    ∧ BigInt.as_int_n_tail bits v % 2 ^ bits = v % 2 ^ bits := by
  have hpos : (0 : ℤ) < 2 ^ bits := by positivity
  have hm0 : 0 ≤ v % 2 ^ bits := Int.emod_nonneg v (ne_of_gt hpos)
  have hmlt : v % 2 ^ bits < 2 ^ bits := Int.emod_lt_of_pos v hpos
  have hself : (v % 2 ^ bits) % 2 ^ bits = v % 2 ^ bits := Int.emod_emod_of_dvd v dvd_rfl
  have hsub : (v % 2 ^ bits - 2 ^ bits) % 2 ^ bits = v % 2 ^ bits := by
    simp [Int.sub_emod]
  have htwo : (2 : ℤ) ^ bits = 2 * 2 ^ (bits - 1) := by
    conv_lhs => rw [show bits = (bits - 1) + 1 by omega]
    ring
  have hhpos : (0 : ℤ) < 2 ^ (bits - 1) := by positivity
  rw [as_int_n_tail_eq bits h v]
  by_cases hc : 2 ^ (bits - 1) ≤ v % 2 ^ bits
  · rw [if_pos hc]
    exact ⟨by omega, by omega, hsub⟩
  · rw [if_neg hc]
    exact ⟨by omega, by omega, hself⟩

/-- Claim C2: for all bits in [1, 64] and every integer v, asUintN(bits, v)
returns the Euclidean remainder of v by 2^bits, a value in [0, 2^bits)
congruent to v modulo 2^bits; concretely asUintN(8, -1) = 255. (`%` on ℤ
is the Euclidean remainder, matching the Integer type of the spec.) -/
theorem as_uint_n_range_and_congruence (bits : ℕ) (v : ℤ) (b w : Value)
    (h1 : 1 ≤ bits) (h2 : bits ≤ 64)
    (hb : b.to_index = Except.ok bits) (hw : w.to_bigint = some v) :
    BigInt.as_uint_n [b, w] = Outcome.ok (Value.bigintV (v % 2 ^ bits))
    ∧ 0 ≤ v % 2 ^ bits
    ∧ v % 2 ^ bits < 2 ^ bits
    ∧ (v % 2 ^ bits) % 2 ^ bits = v % 2 ^ bits
    ∧ BigInt.as_uint_n [Value.numV 8 1, Value.bigintV (-1)]
        = Outcome.ok (Value.bigintV 255) := by
  obtain ⟨heq, hnn, hlt, hcong⟩ := as_uint_n_tail_spec bits v
  have hble : bits ≤ u32Max := by unfold u32Max; omega
  refine ⟨?_, hnn, hlt, hcong, by decide⟩
  simp only [BigInt.as_uint_n, hb, hw, hble, if_pos, heq]

/-- Witness for C2 at bits = 8, v = -1. -/
theorem as_uint_n_range_and_congruence_witness :
    BigInt.as_uint_n [Value.numV 8 1, Value.bigintV (-1)]
      = Outcome.ok (Value.bigintV ((-1) % 2 ^ 8)) :=
  (as_uint_n_range_and_congruence 8 (-1) (Value.numV 8 1) (Value.bigintV (-1))
    (by decide) (by decide) (by decide) rfl).1

/-- Claim C3: for all bits in [1, 64] and every integer v, asIntN(bits, v)
returns modulo = v mod 2^bits (Euclidean) when modulo < 2^(bits-1) and
modulo - 2^bits otherwise, a value in [-2^(bits-1), 2^(bits-1) - 1]
congruent to v modulo 2^bits; concretely asIntN(8, 255) = -1. -/
theorem as_int_n_range_and_congruence (bits : ℕ) (v : ℤ) (b w : Value)
    (h1 : 1 ≤ bits) (h2 : bits ≤ 64)
    (hb : b.to_index = Except.ok bits) (hw : w.to_bigint = some v) :
    BigInt.as_int_n [b, w] = Outcome.ok (Value.bigintV
      (if 2 ^ (bits - 1) ≤ v % 2 ^ bits then v % 2 ^ bits - 2 ^ bits else v % 2 ^ bits))
    ∧ -(2 ^ (bits - 1)) ≤ BigInt.as_int_n_tail bits v
    ∧ BigInt.as_int_n_tail bits v ≤ 2 ^ (bits - 1) - 1
    ∧ BigInt.as_int_n_tail bits v % 2 ^ bits = v % 2 ^ bits
    ∧ BigInt.as_int_n [Value.numV 8 1, Value.bigintV 255]
        = Outcome.ok (Value.bigintV (-1)) := by
  obtain ⟨hlb, hub, hcong⟩ := as_int_n_tail_spec bits h1 v
  have hble : bits ≤ u32Max := by unfold u32Max; omega
  refine ⟨?_, hlb, hub, hcong, by decide⟩
  simp only [BigInt.as_int_n, hb, hw, hble, if_pos, as_int_n_tail_eq bits h1 v]

/-- Witness for C3 at bits = 8, v = 255. -/
theorem as_int_n_range_and_congruence_witness :
    BigInt.as_int_n [Value.numV 8 1, Value.bigintV 255]
      = Outcome.ok (Value.bigintV (-1)) :=
  (as_int_n_range_and_congruence 8 255 (Value.numV 8 1) (Value.bigintV 255)
    (by decide) (by decide) (by decide) rfl).2.2.2.2

/-- Claim C8: a bits argument whose coerced index exceeds u32::MAX
saturates to u32::MAX in both asIntN and asUintN instead of producing an
error — the call still returns an ok value, computed at width u32::MAX. -/
theorem as_int_uint_n_saturate (b w : Value) (n : ℕ) (v : ℤ)
    (hb : b.to_index = Except.ok n) (hn : u32Max < n) (hw : w.to_bigint = some v) :
    BigInt.as_int_n [b, w] = Outcome.ok (Value.bigintV (BigInt.as_int_n_tail u32Max v))
    ∧ BigInt.as_uint_n [b, w] = Outcome.ok (Value.bigintV (BigInt.as_uint_n_tail u32Max v)) := by
  have hnle : ¬ (n ≤ u32Max) := by omega
  constructor
  · simp only [BigInt.as_int_n, hb, hw, hnle, if_neg, if_false]
  · simp only [BigInt.as_uint_n, hb, hw, hnle, if_neg, if_false]

/-- Witness for C8 at a coerced index of 2^40. -/
theorem as_int_uint_n_saturate_witness :
    BigInt.as_int_n [Value.numV 1099511627776 1, Value.bigintV 7]
      = Outcome.ok (Value.bigintV (BigInt.as_int_n_tail u32Max 7))
    ∧ BigInt.as_uint_n [Value.numV 1099511627776 1, Value.bigintV 7]
      = Outcome.ok (Value.bigintV (BigInt.as_uint_n_tail u32Max 7)) :=
  as_int_uint_n_saturate (Value.numV 1099511627776 1) (Value.bigintV 7)
    1099511627776 7 (by decide) (by decide) rfl

/-- Claim C10: every failure of the bits-argument coercion — whether of the
TypeError class or the RangeError class — surfaces from asIntN and asUintN
as the one fixed RangeError message; no TypeError is ever produced for the
bits argument. -/
theorem bits_coercion_failure_is_range_error (b w : Value) (e : IndexError)
    (hb : b.to_index = Except.error e) :
    BigInt.as_int_n [b, w] = Outcome.err (JsError.rangeError
      "bits must be convertable to a positive integral number")
    ∧ BigInt.as_uint_n [b, w] = Outcome.err (JsError.rangeError
      "bits must be convertable to a positive integral number") := by
  constructor
  · simp only [BigInt.as_int_n, hb]
  · simp only [BigInt.as_uint_n, hb]

/-- Witness for C10: a bits argument failing coercion with the TypeError
class (a BigInt value) still yields the fixed RangeError. -/
theorem bits_coercion_failure_is_range_error_witness :
    BigInt.as_int_n [Value.bigintV 5, Value.bigintV 1] = Outcome.err (JsError.rangeError
      "bits must be convertable to a positive integral number")
    ∧ BigInt.as_uint_n [Value.bigintV 5, Value.bigintV 1] = Outcome.err (JsError.rangeError
      "bits must be convertable to a positive integral number") :=
  bits_coercion_failure_is_range_error (Value.bigintV 5) (Value.bigintV 1)
    IndexError.typeError (by decide)

/-- Claim C1 (code bug): the source radix check `radix < 2 && radix > 36`
is unsatisfiable, so toString never returns the RangeError the claim
requires — no catchable error is ever produced. At radix 1 and radix 37
execution instead reaches the radix conversion outside its [2, 36]
precondition (a panic); a valid radix such as 16 formats normally. -/
theorem to_string_radix_check_never_fires :
    BigInt.to_string (Value.wrapperV 5) [Value.numV 1 1]
      = Outcome.fatal "to_str_radix: radix out of range"
    ∧ BigInt.to_string (Value.wrapperV 5) [Value.numV 37 1]
      = Outcome.fatal "to_str_radix: radix out of range"
    ∧ BigInt.to_string (Value.wrapperV 255) [Value.numV 16 1]
      = Outcome.ok (Value.strV "ff")
    ∧ ∀ (self : Value) (args : List Value) (e : JsError),
        BigInt.to_string self args ≠ Outcome.err e := by
  refine ⟨by decide, by decide, by decide, ?_⟩
  intro self args e
  have hten : ¬ ((10 : ℤ) < 2 ∧ 36 < (10 : ℤ)) := by omega
  have hany : ∀ r : ℤ, ¬ (r < 2 ∧ 36 < r) := by intro r hr; omega
  intro h
  cases args with
  | nil =>
    simp only [BigInt.to_string, if_neg hten] at h
    split at h
    · exact Outcome.noConfusion h
    · split at h
      · exact Outcome.noConfusion h
      · exact Outcome.noConfusion h
  | cons arg rest =>
    simp only [BigInt.to_string, if_neg (hany arg.to_integer)] at h
    split at h
    · exact Outcome.noConfusion h
    · split at h
      · exact Outcome.noConfusion h
      · exact Outcome.noConfusion h

/-- Witness for C1: toString with an explicit radix argument does not
return a catchable error. -/
theorem to_string_radix_check_never_fires_witness :
    BigInt.to_string (Value.wrapperV 5) [Value.numV 1 1]
      ≠ Outcome.err (JsError.rangeError
        "radix must be an integer at least 2 and no greater than 36") :=
  to_string_radix_check_never_fires.2.2.2 (Value.wrapperV 5) [Value.numV 1 1]
    (JsError.rangeError "radix must be an integer at least 2 and no greater than 36")

/-- Claim C4 (code bug): calls to asIntN and asUintN with fewer than two
arguments hit the `todo!()` arm and panic (a fatal abort), instead of
treating the missing arguments as undefined and returning a catchable
error value. -/
theorem as_int_uint_n_missing_args_panic :
    BigInt.as_int_n [] = Outcome.fatal "not yet implemented"
    ∧ BigInt.as_int_n [Value.undefined] = Outcome.fatal "not yet implemented"
    ∧ BigInt.as_uint_n [] = Outcome.fatal "not yet implemented"
    ∧ BigInt.as_uint_n [Value.undefined] = Outcome.fatal "not yet implemented" :=
  ⟨rfl, rfl, rfl, rfl⟩

/-- Claim C5: BigInt() with no argument gives Integer 0; with an argument
it returns exactly the ToBigInt image; on coercion failure it returns a
RangeError whose message starts with the textual form of the offending
value. Concretely BigInt("10") is Integer 10 and BigInt(3.5) is a
RangeError. -/
theorem make_bigint_spec (v : Value) (n : ℤ) :
    BigInt.make_bigint [] = Outcome.ok (Value.bigintV 0)
    ∧ (v.to_bigint = some n → BigInt.make_bigint [v] = Outcome.ok (Value.bigintV n))
    ∧ (v.to_bigint = none → BigInt.make_bigint [v] = Outcome.err (JsError.rangeError
        (v.display ++ " can\x27t be converted to BigInt because it isn\x27t an integer")))
    ∧ BigInt.make_bigint [Value.strV "10"] = Outcome.ok (Value.bigintV 10)
    ∧ BigInt.make_bigint [Value.numV 7 2] = Outcome.err (JsError.rangeError
        ((Value.numV 7 2).display ++ " can\x27t be converted to BigInt because it isn\x27t an integer")) := by
  refine ⟨rfl, ?_, ?_, by decide, by decide⟩
  · intro h
    simp only [BigInt.make_bigint, List.head?, h]
  · intro h
    simp only [BigInt.make_bigint, List.head?, h]

/-- Witness for C5 at the two concrete conversions of the claim. -/
theorem make_bigint_spec_witness :
    BigInt.make_bigint [Value.strV "10"] = Outcome.ok (Value.bigintV 10)
    ∧ BigInt.make_bigint [Value.numV 7 2] = Outcome.err (JsError.rangeError
        ((Value.numV 7 2).display ++ " can\x27t be converted to BigInt because it isn\x27t an integer")) :=
  ⟨(make_bigint_spec (Value.strV "10") 10).2.1 (by decide),
   (make_bigint_spec (Value.numV 7 2) 0).2.2.1 (by decide)⟩

/-- Claim C9: valueOf on a value holding the BigInt internal slot returns
the primitive Integer in the slot; valueOf never returns a catchable error
value, and when the receiver cannot produce a BigInt the failure is the
fatal `expect` panic, not a user-facing error. -/
theorem value_of_spec (n : ℤ) (self : Value) (args args2 : List Value) :
    BigInt.value_of (Value.wrapperV n) args = Outcome.ok (Value.bigintV n)
    ∧ (∀ e, BigInt.value_of self args2 ≠ Outcome.err e)
    ∧ (self.to_bigint = none →
        BigInt.value_of self args2 = Outcome.fatal "BigInt.prototype.valueOf") := by
  refine ⟨rfl, ?_, ?_⟩
  · intro e
    cases hv : self.to_bigint <;> simp [BigInt.value_of, hv]
  · intro h
    simp only [BigInt.value_of, h]

/-- Witness for C9: valueOf on a wrapper returns its slot, and on a value
lacking a BigInt (undefined) it is the fatal panic. -/
theorem value_of_spec_witness :
    BigInt.value_of (Value.wrapperV 7) [] = Outcome.ok (Value.bigintV 7)
    ∧ BigInt.value_of Value.undefined [] = Outcome.fatal "BigInt.prototype.valueOf" :=
  ⟨(value_of_spec 7 Value.undefined [] []).1,
   (value_of_spec 7 Value.undefined [] []).2.2 (by decide)⟩

/-- Claim C6: parsing [Inc, Identifier x] yields a prefix-increment node,
parsing [Identifier x, Inc] yields a postfix-increment node, parsing the
empty stream fails with AbruptEnd, and a prefix node is returned
immediately — a trailing Inc after the prefix parse is left unconsumed
and never wraps the prefix node in a postfix node. -/
theorem update_expression_parse_cases (y a : Bool) :
    UpdateExpression.parse lhsIdentParse y a
        [TokenKind.punc Punctuator.inc, TokenKind.identifier "x"]
      = Except.ok (Node.unary_op UnaryOp.incrementPre (Node.identifier "x"), [])
    ∧ UpdateExpression.parse lhsIdentParse y a
        [TokenKind.identifier "x", TokenKind.punc Punctuator.inc]
      = Except.ok (Node.unary_op UnaryOp.incrementPost (Node.identifier "x"), [])
    ∧ UpdateExpression.parse lhsIdentParse y a ([] : List TokenKind)
      = Except.error ParseError.abruptEnd
    ∧ UpdateExpression.parse lhsIdentParse y a
        [TokenKind.punc Punctuator.inc, TokenKind.identifier "x", TokenKind.punc Punctuator.inc]
      = Except.ok (Node.unary_op UnaryOp.incrementPre (Node.identifier "x"),
          [TokenKind.punc Punctuator.inc]) :=
  ⟨rfl, rfl, rfl, rfl⟩

/-- Claim C7: the parser passes its allow_yield / allow_await flags to the
operand sub-parse unmodified — its result depends on the sub-parser only
through the sub-parser behaviour at exactly those flags — and any error of
the operand sub-parse is returned unchanged, in the prefix branches (where
the operator token was consumed first) and in the operand-first branch. -/
theorem update_expression_parse_ctx (f g : SubParse) (y a : Bool)
    (cursor : List TokenKind) (hfg : ∀ ts, f y a ts = g y a ts) :
    UpdateExpression.parse f y a cursor = UpdateExpression.parse g y a cursor
    ∧ (∀ e rest, cursor = TokenKind.punc Punctuator.inc :: rest →
        f y a rest = Except.error e →
        UpdateExpression.parse f y a cursor = Except.error e)
    ∧ (∀ e rest, cursor = TokenKind.punc Punctuator.dec :: rest →
        f y a rest = Except.error e →
        UpdateExpression.parse f y a cursor = Except.error e)
    ∧ (∀ e t rest, cursor = t :: rest →
        t ≠ TokenKind.punc Punctuator.inc → t ≠ TokenKind.punc Punctuator.dec →
        f y a cursor = Except.error e →
        UpdateExpression.parse f y a cursor = Except.error e) := by
  refine ⟨?_, ?_, ?_, ?_⟩
  · cases cursor with
    | nil => rfl
    | cons tok rest =>
      cases tok with
      | punc p =>
        cases p with
        | inc => simp only [UpdateExpression.parse, hfg rest]
        | dec => simp only [UpdateExpression.parse, hfg rest]
        | otherPunc s =>
          simp only [UpdateExpression.parse,
            hfg (TokenKind.punc (Punctuator.otherPunc s) :: rest)]
      | identifier s =>
        simp only [UpdateExpression.parse, hfg (TokenKind.identifier s :: rest)]
      | otherTok s =>
        simp only [UpdateExpression.parse, hfg (TokenKind.otherTok s :: rest)]
  · intro e rest hc hf
    subst hc
    simp only [UpdateExpression.parse, hf]
  · intro e rest hc hf
    subst hc
    simp only [UpdateExpression.parse, hf]
  · intro e t rest hc h1 h2 hf
    subst hc
    cases t with
    | punc p =>
      cases p with
      | inc => exact absurd rfl h1
      | dec => exact absurd rfl h2
      | otherPunc s => simp only [UpdateExpression.parse, hf]
    | identifier s => simp only [UpdateExpression.parse, hf]
    | otherTok s => simp only [UpdateExpression.parse, hf]

/-- Witness for C7: a prefix increment with an exhausted rest propagates
the AbruptEnd of the operand sub-parse, and equal sub-parser slices give
equal parses. -/
theorem update_expression_parse_ctx_witness :
    UpdateExpression.parse lhsIdentParse true false [TokenKind.punc Punctuator.inc]
      = Except.error ParseError.abruptEnd
    ∧ UpdateExpression.parse lhsIdentParse true false [TokenKind.identifier "x"]
      = UpdateExpression.parse lhsIdentParse true false [TokenKind.identifier "x"] :=
  ⟨(update_expression_parse_ctx lhsIdentParse lhsIdentParse true false
      [TokenKind.punc Punctuator.inc] (fun _ => rfl)).2.1
        ParseError.abruptEnd [] rfl rfl,
   (update_expression_parse_ctx lhsIdentParse lhsIdentParse true false
      [TokenKind.identifier "x"] (fun _ => rfl)).1⟩
